import Mathlib

/-!
Verification of the TAPIR PyTorch inference example script (src/example.py).
The definitions below are a shallow embedding of the script's orchestration
logic: pure numeric code is translated to functions over ℚ or ℝ, the
OpenCV / numpy / torch library calls are modelled by their documented
semantics, and the external TAPIR network (package tapnet, not part of the
analysed sources) is abstracted as a function parameter wherever a claim
only concerns the orchestration around it.
-/

open Filter Topology

namespace Tapir

/-! ## Visibility classifier (example.py, lines 53-55) -/

/-- Torch F.sigmoid, the logistic function, over the reals (the float
tensor entries are modelled as real numbers). -/
noncomputable def sigmoid (x : ℝ) : ℝ := 1 / (1 + Real.exp (-x))

/-- Embedding of postprocess_occlusions: a point is visible iff
(1 - sigmoid occlusions) * (1 - sigmoid expected_dist) > 0.5, applied
elementwise to the two logit tensors. -/
noncomputable def postprocess_occlusions (occlusions expected_dist : ℝ) : Prop :=
  (1 - sigmoid occlusions) * (1 - sigmoid expected_dist) > 0.5

/-! ## Preprocessor (example.py, lines 28-39) -/

/-- A raw video frame: height x width x 3 array of 8-bit colour samples
(the 8-bit range is imposed as a hypothesis where needed). -/
structure RawFrame where
  h : ℕ
  w : ℕ
  pix : Fin h → Fin w → Fin 3 → ℕ

/-- cv2.cvtColor(frame, cv2.COLOR_BGR2RGB): reverses the channel axis. -/
def cvtColor_BGR2RGB (f : RawFrame) : RawFrame :=
  ⟨f.h, f.w, fun i j c => f.pix i j ⟨2 - c.val, by omega⟩⟩

/-- cv2.resize(img, dsize): OpenCV interprets dsize as (width, height).
The interpolation itself is external library code; it is modelled as
nearest-neighbour sampling, which has the two properties the claims rely
on: the output has exactly the requested size and every output sample is
one of the input samples (so the value range is preserved, as it also is
for OpenCV's default bilinear interpolation, a convex combination).
Resizing an empty image raises in OpenCV, modelled by none. -/
def cv2_resize (f : RawFrame) (dsize : ℕ × ℕ) : Option RawFrame :=
  if hf : 0 < f.h ∧ 0 < f.w then
    some ⟨dsize.2, dsize.1, fun i j c =>
      f.pix ⟨min (i.val * f.h / dsize.2) (f.h - 1),
             lt_of_le_of_lt (min_le_right _ _) (Nat.sub_lt hf.1 Nat.one_pos)⟩
            ⟨min (j.val * f.w / dsize.1) (f.w - 1),
             lt_of_le_of_lt (min_le_right _ _) (Nat.sub_lt hf.2 Nat.one_pos)⟩ c⟩
  else none

/-- A 4-axis float tensor (entries modelled as rationals, since the
preprocessing arithmetic is exact on them). -/
structure Tensor4 where
  n : ℕ
  c : ℕ
  h : ℕ
  w : ℕ
  val : Fin n → Fin c → Fin h → Fin w → ℚ

/-- Embedding of preprocess_frame: BGR2RGB conversion, cv2.resize to the
given size tuple, newaxis batch dimension, cast to float, / 255 * 2 - 1,
and permute(0, 3, 1, 2) to channel-first layout. -/
def preprocess_frame (frame : RawFrame) (resize : ℕ × ℕ) : Option Tensor4 :=
  (cv2_resize (cvtColor_BGR2RGB frame) resize).map fun r =>
    ⟨1, 3, r.h, r.w, fun _ c i j => ((r.pix i j c : ℚ) / 255) * 2 - 1⟩

/-- A concrete 1x1 all-zero frame, used to evaluate the definitions. -/
def exFrame : RawFrame := ⟨1, 1, fun _ _ _ => 0⟩

/-! ## Query point sampling (example.py, lines 41-50) -/

/-- np.linspace(0, stop, num).astype(np.int32) for stop >= 0: num evenly
spaced floats from 0 to stop, truncated to integers. The float value
i * stop / (num - 1) is modelled by exact rational division with floor. -/
def np_linspace_int (stop num : ℕ) : List ℕ :=
  if num = 0 then []
  else if num = 1 then [0]
  else (List.range num).map (fun i => i * stop / (num - 1))

/-- Embedding of sample_random_points. int(np.sqrt(num_points)) is
Nat.sqrt; meshgrid of the x and y grids flattened row-major is y.flatMap;
np.random.randint(0, frame_max_idx + 1, (num_points, 1)) is modelled by an
external entropy stream rand reduced into randint's documented range
[0, frame_max_idx]. np.concatenate raises ValueError when the first axes
disagree, i.e. when num_points differs from the grid size; that error is
modelled by none. -/
def sample_random_points (frame_max_idx height width num_points : ℕ)
    (rand : ℕ → ℕ) : Option (List (ℕ × ℕ × ℕ)) :=
  let k := Nat.sqrt num_points
  let x := np_linspace_int (width - 1) k
  let y := np_linspace_int (height - 1) k
  let grid := y.flatMap (fun yy => x.map (fun xx => (yy, xx)))
  if num_points = grid.length then
    some ((List.range num_points).map (fun i =>
      (rand i % (frame_max_idx + 1), (grid.getD i (0, 0)).1, (grid.getD i (0, 0)).2)))
  else none

/-! ## Coordinate rescaling (example.py, lines 140-141) -/

/-- Per-axis coordinate rescaling applied before drawing:
tracks[:, 0] * width / resize_width (and likewise for the other axis). -/
def rescale (orig working x : ℚ) : ℚ := x * orig / working

/-! ## Renderer (example.py, lines 14-26) -/

/-- Python int() applied to a float: truncation toward zero. -/
def pyInt (q : ℚ) : ℤ := if 0 ≤ q then ⌊q⌋ else ⌈q⌉

/-- One cv2.circle drawing command, with the constants of line 21-25:
radius 5 and thickness -1 (filled). -/
structure CircleCmd where
  cx : ℤ
  cy : ℤ
  radius : ℕ
  color : ℕ × ℕ × ℕ
  thickness : ℤ
deriving DecidableEq

/-- The circle drawn for a track point and its colour row. -/
def mkCircle (p : ℚ × ℚ) (c : ℕ × ℕ × ℕ) : CircleCmd :=
  ⟨pyInt p.1, pyInt p.2, 5, c, -1⟩

/-- Embedding of draw_points: the frame is modelled as the list of circle
commands painted onto it; the loop over range(points.shape[0]) skips
index i when visible[i] is falsy and otherwise appends the circle for
points[i] with colour colors[i]. -/
def draw_points (frame : List CircleCmd) (points : List (ℚ × ℚ))
    (visible : List Bool) (colors : List (ℕ × ℕ × ℕ)) : List CircleCmd :=
  (List.range points.length).foldl
    (fun fr i =>
      if (visible.getD i false) = false then fr
      else fr ++ [mkCircle (points.getD i (0, 0)) (colors.getD i (0, 0, 0))])
    frame

/-! ## Online tracker step (example.py, lines 70-94) -/

/-- The dictionary returned by model.estimate_trajectories: one entry per
pyramid resolution level for tracks, occlusion logits and expected-distance
logits, plus the updated causal context. The per-level track payload T and
the causal context C are abstract. -/
structure Trajectories (T C : Type) where
  tracks : List T
  occlusion : List (List ℝ)
  expected_dist : List (List ℝ)
  causal_context : C

/-- Embedding of online_model_predict. The external model call (tapnet's
estimate_trajectories on the feature grids of the preprocessed frame) is
the parameter est, a function of the query_chunk_size literal and the
causal context, exactly the two data the orchestration code passes that
vary or are constants of this file; the code calls it with chunk size 64,
keeps only the last ([-1]) pyramid level of each output list (an error on
an empty list, modelled by none) and classifies visibility elementwise
with postprocess_occlusions. -/
noncomputable def online_model_predict {T C : Type}
    (est : ℕ → C → Trajectories T C) (causal_context : C) :
    Option (T × List Prop × C) :=
  let tr := est 64 causal_context
  match tr.tracks.getLast?, tr.occlusion.getLast?, tr.expected_dist.getLast? with
  | some t, some occ, some ed =>
      some (t, List.zipWith (fun o e => postprocess_occlusions o e) occ ed,
            tr.causal_context)
  | _, _, _ => none

/-! ## The streaming loop, value level (example.py, lines 125-147) -/

/-- One per-frame output bundle appended to the predictions list. -/
structure Prediction (Track : Type) where
  tracks : List Track
  visibles : List Bool

/-- Embedding of the while loop of lines 127-147 at value level: cap.read()
results are a list of Option frames (none = read failure; reads past the
end of the list also fail, as they do on an exhausted capture); predictFn
is the online_model_predict step threading the causal state; keys i is the
cv2.waitKey result of iteration i, compared via & 0xFF == ord('q'). -/
def trackLoop {Frame Causal Track : Type}
    (predictFn : Frame → Causal → Prediction Track × Causal) (keys : ℕ → ℕ) :
    List (Option Frame) → ℕ → Causal → List (Prediction Track) →
      List (Prediction Track)
  | [], _, _, preds => preds
  | none :: _, _, _, preds => preds
  | some f :: rest, i, c, preds =>
      let r := predictFn f c
      let preds2 := preds ++ [r.1]
      if keys i &&& 255 = 113 then preds2
      else trackLoop predictFn keys rest (i + 1) r.2 preds2

/-! ## Call-trace instrumentation of the run (example.py, lines 114-133) -/

/-- One observable model call of the run: the single query-feature
initialisation, or a predict step with the query-feature arguments it was
passed. -/
inductive CallEv (Frame QF HQF : Type) where
  | init (f : Frame)
  | predict (qf : QF) (hqf : HQF)
deriving DecidableEq

/-- Test for an initialisation event. -/
def isInitEv {Frame QF HQF : Type} : CallEv Frame QF HQF → Bool
  | .init _ => true
  | _ => false

/-- Test for a predict event. -/
def isPredictEv {Frame QF HQF : Type} : CallEv Frame QF HQF → Bool
  | .predict _ _ => true
  | _ => false

/-- The predict calls issued by the while loop, with the query-feature
pair each call receives; qfs is bound once outside and, as in the source,
never rebound in the loop body (only the causal state is threaded). -/
def loopEvents {Frame QF HQF Causal Track : Type} (qfs : QF × HQF)
    (predictFn : QF × HQF → Frame → Causal → Prediction Track × Causal)
    (keys : ℕ → ℕ) :
    List (Option Frame) → ℕ → Causal → List (CallEv Frame QF HQF)
  | [], _, _ => []
  | none :: _, _, _ => []
  | some f :: rest, i, c =>
      let r := predictFn qfs f c
      CallEv.predict qfs.1 qfs.2 ::
        (if keys i &&& 255 = 113 then []
         else loopEvents qfs predictFn keys rest (i + 1) r.2)

/-- The full call trace of a run: online_model_init on the first frame
(line 116), then the loop's predict calls with the initialiser's output. -/
def mainEvents {Frame QF HQF Causal Track : Type} (initFn : Frame → QF × HQF)
    (predictFn : QF × HQF → Frame → Causal → Prediction Track × Causal)
    (keys : ℕ → ℕ) (firstFrame : Frame) (frames : List (Option Frame))
    (c0 : Causal) : List (CallEv Frame QF HQF) :=
  CallEv.init firstFrame :: loopEvents (initFn firstFrame) predictFn keys frames 0 c0

/-! ## The streaming loop, heap level (example.py, lines 133-141)

Tensor and ndarray objects alias: torch.Tensor.cpu() returns the very same
tensor when it already lives on the CPU (and a fresh copy when it lives on
CUDA), Tensor.numpy() shares the underlying storage with the tensor, and
ndarray.squeeze() returns a view. The heap model below makes these
documented aliasing rules explicit for the tensors the loop body touches. -/

/-- A tracks buffer: the payload of one tracks tensor, one (x, y) row per
query point. -/
abbrev TBuf := List (ℚ × ℚ)

/-- A visibles buffer: the payload of one visibles tensor. -/
abbrev VBuf := List Bool

/-- Heap state of the loop: bump-allocated stores of track and visible
buffers, and the predictions log holding references into them. -/
structure LoopSt where
  tnext : ℕ
  tmem : ℕ → TBuf
  vnext : ℕ
  vmem : ℕ → VBuf
  preds : List (ℕ × ℕ)

/-- Store update on the tracks heap. -/
def writeT (m : ℕ → TBuf) (r : ℕ) (b : TBuf) : ℕ → TBuf :=
  fun j => if j = r then b else m j

/-- Store update on the visibles heap. -/
def writeV (m : ℕ → VBuf) (r : ℕ) (b : VBuf) : ℕ → VBuf :=
  fun j => if j = r then b else m j

/-- One iteration of the loop body after online_model_predict returned
fresh tensors with payloads out.1 (tracks) and out.2 (visibles), on the
device given by cuda. In source order: predictions.append stores the
references (line 136); visibles.cpu().numpy().squeeze() copies iff the
tensor was on CUDA (line 138); tracks.cpu().numpy().squeeze() likewise
(line 139); then the two in-place column assignments of lines 140-141
write through that numpy array. -/
def predictStep (cuda : Bool) (width height rw rh : ℚ) (st : LoopSt)
    (out : TBuf × VBuf) : LoopSt :=
  let rT := st.tnext
  let m1 := writeT st.tmem rT out.1
  let rV := st.vnext
  let vm1 := writeV st.vmem rV out.2
  let preds2 := st.preds ++ [(rT, rV)]
  let vm2 := if cuda then writeV vm1 (rV + 1) (vm1 rV) else vm1
  let vn2 := if cuda then rV + 2 else rV + 1
  let rTnp := if cuda then rT + 1 else rT
  let m2 := if cuda then writeT m1 (rT + 1) (m1 rT) else m1
  let n2 := if cuda then rT + 2 else rT + 1
  let m3 := writeT m2 rTnp ((m2 rTnp).map (fun p => (p.1 * width / rw, p.2)))
  let m4 := writeT m3 rTnp ((m3 rTnp).map (fun p => (p.1, p.2 * height / rh)))
  ⟨n2, m4, vn2, vm2, preds2⟩

/-- The loop at heap level, folding predictStep over the per-frame model
outputs. -/
def runPredictLoop (cuda : Bool) (width height rw rh : ℚ)
    (outs : List (TBuf × VBuf)) (st : LoopSt) : LoopSt :=
  outs.foldl (predictStep cuda width height rw rh) st

/-- The empty heap the run starts from. -/
def emptyLoopSt : LoopSt := ⟨0, fun _ => [], 0, fun _ => [], []⟩

/-! ## Concrete instantiations used to evaluate the embeddings -/

/-- A concrete query-feature initialiser over trivial frame data. -/
def exInitFn : Unit → ℕ × ℕ := fun _ => (7, 8)

/-- A concrete predict step (for the call-trace embedding). -/
def exPredictFn : ℕ × ℕ → Unit → Unit → Prediction ℕ × Unit :=
  fun _ _ _ => (⟨[], []⟩, ())

/-- A concrete predict step returning 256-point bundles (for the value
level loop embedding). -/
def exPredictFn256 : Unit → Unit → Prediction ℕ × Unit :=
  fun _ _ => (⟨List.replicate 256 0, List.replicate 256 true⟩, ())

/-- A concrete waitKey stream that never reports the quit key. -/
def exKeys : ℕ → ℕ := fun _ => 0

/-- A concrete trajectory-estimation callee with a single pyramid level. -/
noncomputable def exEst : ℕ → Unit → Trajectories ℕ Unit :=
  fun _ _ => ⟨[5], [[0]], [[0]], ()⟩

end Tapir

namespace Tapir

lemma sigmoid_eq_inv : sigmoid = fun x : ℝ => (1 + Real.exp (-x))⁻¹ :=
  funext fun x => by simp [sigmoid, one_div]

lemma sigmoid_tendsto_atBot : Tendsto sigmoid atBot (nhds 0) := by
  have h1 : Tendsto (fun x : ℝ => Real.exp (-x)) atBot atTop :=
    Real.tendsto_exp_atTop.comp tendsto_neg_atBot_atTop
  have h2 : Tendsto (fun x : ℝ => 1 + Real.exp (-x)) atBot atTop :=
    tendsto_atTop_add_const_left _ 1 h1
  have h3 : Tendsto (fun x : ℝ => (1 + Real.exp (-x))⁻¹) atBot (nhds 0) :=
    tendsto_inv_atTop_zero.comp h2
  rw [sigmoid_eq_inv]
  exact h3

lemma sigmoid_tendsto_atTop : Tendsto sigmoid atTop (nhds 1) := by
  have h1 : Tendsto (fun x : ℝ => Real.exp (-x)) atTop (nhds 0) :=
    Real.tendsto_exp_atBot.comp tendsto_neg_atTop_atBot
  have h2 : Tendsto (fun x : ℝ => 1 + Real.exp (-x)) atTop (nhds 1) := by
    have := (tendsto_const_nhds (x := (1 : ℝ)) (f := atTop)).add h1
    simpa using this
  have h3 : Tendsto (fun x : ℝ => (1 + Real.exp (-x))⁻¹) atTop (nhds 1⁻¹) :=
    h2.inv₀ (by norm_num)
  rw [sigmoid_eq_inv]
  simpa using h3

lemma visibility_product_tendsto_one :
    Tendsto (fun p : ℝ × ℝ => (1 - sigmoid p.1) * (1 - sigmoid p.2))
      (atBot ×ˢ atBot) (nhds 1) := by
  have hf : Tendsto (fun p : ℝ × ℝ => sigmoid p.1) (atBot ×ˢ atBot) (nhds 0) :=
    sigmoid_tendsto_atBot.comp tendsto_fst
  have hs : Tendsto (fun p : ℝ × ℝ => sigmoid p.2) (atBot ×ˢ atBot) (nhds 0) :=
    sigmoid_tendsto_atBot.comp tendsto_snd
  have h1 : Tendsto (fun p : ℝ × ℝ => 1 - sigmoid p.1) (atBot ×ˢ atBot)
      (nhds (1 - 0)) := tendsto_const_nhds.sub hf
  have h2 : Tendsto (fun p : ℝ × ℝ => 1 - sigmoid p.2) (atBot ×ˢ atBot)
      (nhds (1 - 0)) := tendsto_const_nhds.sub hs
  have := h1.mul h2
  simpa using this

lemma visibility_product_tendsto_zero :
    Tendsto (fun p : ℝ × ℝ => (1 - sigmoid p.1) * (1 - sigmoid p.2))
      (atTop ×ˢ atTop) (nhds 0) := by
  have hf : Tendsto (fun p : ℝ × ℝ => sigmoid p.1) (atTop ×ˢ atTop) (nhds 1) :=
    sigmoid_tendsto_atTop.comp tendsto_fst
  have hs : Tendsto (fun p : ℝ × ℝ => sigmoid p.2) (atTop ×ˢ atTop) (nhds 1) :=
    sigmoid_tendsto_atTop.comp tendsto_snd
  have h1 : Tendsto (fun p : ℝ × ℝ => 1 - sigmoid p.1) (atTop ×ˢ atTop)
      (nhds (1 - 1)) := tendsto_const_nhds.sub hf
  have h2 : Tendsto (fun p : ℝ × ℝ => 1 - sigmoid p.2) (atTop ×ˢ atTop)
      (nhds (1 - 1)) := tendsto_const_nhds.sub hs
  have := h1.mul h2
  simpa using this

/-- C1: postprocess_occlusions declares a point visible iff
(1 - sigmoid occlusion) * (1 - sigmoid expected_dist) is strictly greater
than 0.5; eventually as both logits tend to -infinity the point is visible,
and eventually as both tend to +infinity it is not. -/
theorem C1_postprocess_visibility :
    (∀ o e : ℝ, postprocess_occlusions o e ↔
      (1 - sigmoid o) * (1 - sigmoid e) > 0.5) ∧
    (∀ᶠ p : ℝ × ℝ in atBot ×ˢ atBot, postprocess_occlusions p.1 p.2) ∧
    (∀ᶠ p : ℝ × ℝ in atTop ×ˢ atTop, ¬ postprocess_occlusions p.1 p.2) := by
  refine ⟨fun o e => Iff.rfl, ?_, ?_⟩
  · have h := visibility_product_tendsto_one.eventually
      (eventually_gt_nhds (show (0.5 : ℝ) < 1 by norm_num))
    exact h.mono fun p hp => hp
  · have h := visibility_product_tendsto_zero.eventually
      (eventually_lt_nhds (show (0 : ℝ) < 0.5 by norm_num))
    exact h.mono fun p hp => lt_asymm hp

/-- C4: the coordinate rescaling x * orig / working is additive and
homogeneous (linear), strictly monotone when the scale factor
orig / working is positive, and undone exactly (so in particular within
any quantization tolerance) by the opposite rescaling. -/
theorem C4_rescale_properties :
    ∀ orig working x y a : ℚ,
      (rescale orig working (x + y) =
          rescale orig working x + rescale orig working y ∧
        rescale orig working (a * x) = a * rescale orig working x) ∧
      (0 < orig / working → x < y →
        rescale orig working x < rescale orig working y) ∧
      (orig ≠ 0 → working ≠ 0 →
        rescale working orig (rescale orig working x) = x) := by
  intro o w x y a
  refine ⟨⟨?_, ?_⟩, ?_, ?_⟩
  · unfold rescale; ring
  · unfold rescale; ring
  · intro hpos hxy
    unfold rescale
    rw [mul_div_assoc, mul_div_assoc]
    exact mul_lt_mul_of_pos_right hxy hpos
  · intro ho hw
    unfold rescale
    field_simp

/-- C4 witness: the rescaling properties evaluated for a 512-pixel original
axis, the 256-pixel working axis and concrete coordinates. -/
theorem C4_rescale_properties_witness :
    (rescale 512 256 (1 + 2) = rescale 512 256 1 + rescale 512 256 2 ∧
      rescale 512 256 (3 * 1) = 3 * rescale 512 256 1) ∧
    rescale 512 256 1 < rescale 512 256 2 ∧
    rescale 256 512 (rescale 512 256 1) = 1 :=
  ⟨(C4_rescale_properties 512 256 1 2 3).1,
   (C4_rescale_properties 512 256 1 2 3).2.1 (by norm_num) (by norm_num),
   (C4_rescale_properties 512 256 1 2 3).2.2 (by norm_num) (by norm_num)⟩

/-- C9: a failed read is treated as end of stream: running the loop on a
frame list containing a read failure equals running it on the prefix
before the failure, so the loop stops there without producing any further
prediction and with the prediction log of the prefix intact; and a failure
at the head returns the accumulated log unchanged. -/
theorem C9_read_failure_is_end_of_stream :
    ∀ {Frame Causal Track : Type}
      (predictFn : Frame → Causal → Prediction Track × Causal)
      (keys : ℕ → ℕ) (fs rest : List (Option Frame)) (i : ℕ) (c : Causal)
      (acc : List (Prediction Track)),
      trackLoop predictFn keys (fs ++ none :: rest) i c acc =
        trackLoop predictFn keys fs i c acc ∧
      trackLoop predictFn keys (none :: rest) i c acc = acc := by
  intro F C T predictFn keys fs rest i c acc
  constructor
  · induction fs generalizing i c acc with
    | nil => simp [trackLoop]
    | cons hd tl ih =>
      cases hd with
      | none => simp [trackLoop]
      | some f =>
        by_cases hk : keys i &&& 255 = 113
        · simp [trackLoop, hk]
        · simp [trackLoop, hk, ih]
  · rfl

lemma scale_255_bounds (m : ℕ) (hm : m ≤ 255) :
    -1 ≤ ((m : ℚ) / 255) * 2 - 1 ∧ ((m : ℚ) / 255) * 2 - 1 ≤ 1 := by
  have h0 : (0 : ℚ) ≤ (m : ℚ) := Nat.cast_nonneg _
  have h255 : (m : ℚ) ≤ 255 := by exact_mod_cast hm
  have hlo : (0 : ℚ) ≤ (m : ℚ) / 255 := div_nonneg h0 (by norm_num)
  have hhi : (m : ℚ) / 255 ≤ 1 := by
    rw [div_le_one (by norm_num)]
    exact h255
  constructor <;> linarith

/-- C2 (amended): for every nonempty 8-bit frame and target size tuple
(th, tw), preprocess_frame returns a batch-1, 3-channel, channel-first
tensor with all values in [-1, 1]; its spatial dimensions are (tw, th) —
the size tuple is consumed by cv2.resize as (width, height) — which equals
the requested (th, tw) exactly when th = tw, as at every call site of the
script (256 x 256). -/
theorem C2_preprocess_amended :
    ∀ (f : RawFrame) (th tw : ℕ), 0 < f.h → 0 < f.w →
      (∀ i j c, f.pix i j c ≤ 255) →
      ∃ t : Tensor4, preprocess_frame f (th, tw) = some t ∧
        t.n = 1 ∧ t.c = 3 ∧ t.h = tw ∧ t.w = th ∧
        ∀ b c i j, -1 ≤ t.val b c i j ∧ t.val b c i j ≤ 1 := by
  intro f th tw hh hw hpix
  have hcond : 0 < (cvtColor_BGR2RGB f).h ∧ 0 < (cvtColor_BGR2RGB f).w :=
    ⟨hh, hw⟩
  unfold preprocess_frame cv2_resize
  rw [dif_pos hcond]
  refine ⟨_, rfl, rfl, rfl, rfl, rfl, ?_⟩
  intro b c i j
  exact scale_255_bounds _ (hpix _ _ _)

/-- C2 counterexample: with target tuple (2, 3) read as (height, width),
the output spatial dimensions are (3, 2), not (2, 3): cv2.resize consumes
the tuple as (width, height), so the claim as stated fails whenever the
two target dimensions differ. -/
theorem C2_preprocess_counterexample :
    (preprocess_frame exFrame (2, 3)).map (fun t => (t.h, t.w)) = some (3, 2) ∧
    ((3, 2) : ℕ × ℕ) ≠ (2, 3) := by
  constructor
  · rfl
  · decide

/-- C2 witness: the amended statement evaluated on the concrete 1x1 zero
frame with square target 2 x 2. -/
theorem C2_preprocess_witness :
    ∃ t : Tensor4, preprocess_frame exFrame (2, 2) = some t ∧
      t.n = 1 ∧ t.c = 3 ∧ t.h = 2 ∧ t.w = 2 ∧
      ∀ b c i j, -1 ≤ t.val b c i j ∧ t.val b c i j ≤ 1 :=
  C2_preprocess_amended exFrame 2 2 (by decide) (by decide)
    (fun _ _ _ => Nat.zero_le 255)

lemma np_linspace_int_length (stop num : ℕ) :
    (np_linspace_int stop num).length = num := by
  by_cases h0 : num = 0
  · simp [np_linspace_int, h0]
  · by_cases h1 : num = 1
    · simp [np_linspace_int, h0, h1]
    · simp [np_linspace_int, h0, h1]

lemma np_linspace_int_le (stop num : ℕ) :
    ∀ v ∈ np_linspace_int stop num, v ≤ stop := by
  intro v hv
  by_cases h0 : num = 0
  · simp [np_linspace_int, h0] at hv
  · by_cases h1 : num = 1
    · simp [np_linspace_int, h0, h1] at hv
      omega
    · simp [np_linspace_int, h0, h1] at hv
      obtain ⟨i, hi, rfl⟩ := hv
      have hpos : 0 < num - 1 := by omega
      calc i * stop / (num - 1) ≤ (num - 1) * stop / (num - 1) :=
            Nat.div_le_div_right (Nat.mul_le_mul_right _ (by omega))
        _ = stop := by
            rw [Nat.mul_comm, Nat.mul_div_cancel _ hpos]

lemma gridPairs_length (ys xs : List ℕ) :
    (ys.flatMap (fun yy => xs.map (fun xx => (yy, xx)))).length =
      ys.length * xs.length := by
  induction ys with
  | nil => simp
  | cons y ys ih => simp [ih, Nat.succ_mul, Nat.add_comm]

lemma mem_gridPairs {ys xs : List ℕ} {p : ℕ × ℕ}
    (hp : p ∈ ys.flatMap (fun yy => xs.map (fun xx => (yy, xx)))) :
    p.1 ∈ ys ∧ p.2 ∈ xs := by
  simp only [List.mem_flatMap, List.mem_map] at hp
  obtain ⟨yy, hyy, xx, hxx, h⟩ := hp
  cases h
  exact ⟨hyy, hxx⟩

lemma sample_random_points_spec (fmi h w n : ℕ) (rand : ℕ → ℕ)
    (hsq : Nat.sqrt n * Nat.sqrt n = n) :
    ∃ pts, sample_random_points fmi h w n rand = some pts ∧ pts.length = n ∧
      ∀ p ∈ pts, p.1 ≤ fmi ∧
        p.2.1 ∈ np_linspace_int (h - 1) (Nat.sqrt n) ∧
        p.2.2 ∈ np_linspace_int (w - 1) (Nat.sqrt n) := by
  unfold sample_random_points
  have hg : ((np_linspace_int (h - 1) (Nat.sqrt n)).flatMap
      (fun yy => (np_linspace_int (w - 1) (Nat.sqrt n)).map
        (fun xx => (yy, xx)))).length = n := by
    rw [gridPairs_length, np_linspace_int_length, np_linspace_int_length, hsq]
  rw [if_pos hg.symm]
  refine ⟨_, rfl, by simp, ?_⟩
  intro p hp
  simp only [List.mem_map, List.mem_range] at hp
  obtain ⟨i, hi, rfl⟩ := hp
  refine ⟨Nat.le_of_lt_succ (Nat.mod_lt _ (Nat.succ_pos _)), ?_⟩
  have higrid : i < ((np_linspace_int (h - 1) (Nat.sqrt n)).flatMap
      (fun yy => (np_linspace_int (w - 1) (Nat.sqrt n)).map
        (fun xx => (yy, xx)))).length := by
    rw [hg]
    exact hi
  have hmem : ((np_linspace_int (h - 1) (Nat.sqrt n)).flatMap
      (fun yy => (np_linspace_int (w - 1) (Nat.sqrt n)).map
        (fun xx => (yy, xx)))).getD i (0, 0) ∈
      (np_linspace_int (h - 1) (Nat.sqrt n)).flatMap
        (fun yy => (np_linspace_int (w - 1) (Nat.sqrt n)).map
          (fun xx => (yy, xx))) := by
    rw [List.getD_eq_getElem _ _ higrid]
    exact List.getElem_mem higrid
  exact mem_gridPairs hmem

/-- C10 counterexample: for num_points = 2 (not a perfect square) the time
indices array has first axis 2 while the meshgrid columns have first axis
floor(sqrt 2)^2 = 1, so np.concatenate raises ValueError (modelled by
none) instead of returning floor(sqrt 2)^2 = 1 points as claimed. -/
theorem C10_sample_counterexample :
    sample_random_points 0 10 10 2 (fun _ => 0) = none := by
  have h2 : Nat.sqrt 2 = 1 := (Nat.eq_sqrt.mpr (by norm_num)).symm
  simp [sample_random_points, h2, np_linspace_int]

/-- C10 (amended): for every num_points >= 1 that is a perfect square (as
the script's 256 is), sample_random_points returns exactly num_points
(time, row, column) triples, with time in [0, frame_max_idx], row on the
truncated evenly spaced grid over [0, height - 1] and column on the
truncated evenly spaced grid over [0, width - 1]; for other num_points the
shape mismatch makes np.concatenate raise. -/
theorem C10_sample_grid_amended :
    ∀ (fmi h w n : ℕ) (rand : ℕ → ℕ), 0 < n → Nat.sqrt n * Nat.sqrt n = n →
      0 < h → 0 < w →
      ∃ pts, sample_random_points fmi h w n rand = some pts ∧
        pts.length = n ∧
        ∀ p ∈ pts, p.1 ≤ fmi ∧
          p.2.1 ∈ np_linspace_int (h - 1) (Nat.sqrt n) ∧ p.2.1 ≤ h - 1 ∧
          p.2.2 ∈ np_linspace_int (w - 1) (Nat.sqrt n) ∧ p.2.2 ≤ w - 1 := by
  intro fmi h w n rand hn hsq hh hw
  obtain ⟨pts, h1, h2, h3⟩ := sample_random_points_spec fmi h w n rand hsq
  refine ⟨pts, h1, h2, ?_⟩
  intro p hp
  obtain ⟨ht, hy, hx⟩ := h3 p hp
  exact ⟨ht, hy, np_linspace_int_le _ _ _ hy, hx, np_linspace_int_le _ _ _ hx⟩

/-- C10 witness: the amended statement evaluated at num_points = 4 on a
10 x 10 working resolution with frame_max_idx = 0 and a constant entropy
stream. -/
theorem C10_sample_grid_witness :
    ∃ pts, sample_random_points 0 10 10 4 (fun _ => 0) = some pts ∧
      pts.length = 4 ∧
      ∀ p ∈ pts, p.1 ≤ 0 ∧
        p.2.1 ∈ np_linspace_int 9 (Nat.sqrt 4) ∧ p.2.1 ≤ 9 ∧
        p.2.2 ∈ np_linspace_int 9 (Nat.sqrt 4) ∧ p.2.2 ≤ 9 :=
  C10_sample_grid_amended 0 10 10 4 (fun _ => 0) (by decide)
    (by rw [show Nat.sqrt 4 = 2 from Nat.sqrt_eq 2]) (by decide) (by decide)

lemma draw_points_cons (frame : List CircleCmd) (p : ℚ × ℚ)
    (ps : List (ℚ × ℚ)) (v : Bool) (vs : List Bool) (c : ℕ × ℕ × ℕ)
    (cs : List (ℕ × ℕ × ℕ)) :
    draw_points frame (p :: ps) (v :: vs) (c :: cs) =
      draw_points (if v = false then frame else frame ++ [mkCircle p c])
        ps vs cs := by
  unfold draw_points
  rw [List.length_cons, List.range_succ_eq_map, List.foldl_cons,
    List.foldl_map]
  simp only [List.getD_cons_zero, List.getD_cons_succ]

lemma draw_points_spec : ∀ (points : List (ℚ × ℚ)) (visible : List Bool)
    (colors : List (ℕ × ℕ × ℕ)) (frame : List CircleCmd),
    visible.length = points.length → colors.length = points.length →
    draw_points frame points visible colors =
      frame ++ ((points.zip (visible.zip colors)).filter
        (fun pvc => pvc.2.1)).map (fun pvc => mkCircle pvc.1 pvc.2.2) := by
  intro points
  induction points with
  | nil =>
    intro visible colors frame hv hc
    simp [draw_points]
  | cons p ps ih =>
    intro visible colors frame hv hc
    cases visible with
    | nil => simp at hv
    | cons v vs =>
      cases colors with
      | nil => simp at hc
      | cons c cs =>
        rw [draw_points_cons,
          ih vs cs _ (by simpa using hv) (by simpa using hc)]
        cases v with
        | false => simp
        | true => simp

/-- C5: draw_points paints onto the frame exactly the circles of the
points whose visibility flag is true, each with its own assigned colour
row and in index order: the result is the input frame followed by the
visibility-filtered, colour-paired circle list, so no point with a false
flag is ever drawn and every point with a true flag is drawn with its
fixed colour. -/
theorem C5_draw_points_only_visible :
    ∀ (frame : List CircleCmd) (points : List (ℚ × ℚ)) (visible : List Bool)
      (colors : List (ℕ × ℕ × ℕ)),
      visible.length = points.length → colors.length = points.length →
      draw_points frame points visible colors =
        frame ++ ((points.zip (visible.zip colors)).filter
          (fun pvc => pvc.2.1)).map (fun pvc => mkCircle pvc.1 pvc.2.2) :=
  fun frame points visible colors hv hc =>
    draw_points_spec points visible colors frame hv hc

/-- C5 witness: a two-point call in which only the first point is visible;
exactly its circle, with its own colour, is appended to the frame. -/
theorem C5_draw_points_witness :
    draw_points [] [(1, 2), (3, 4)] [true, false] [(9, 9, 9), (8, 8, 8)] =
      [] ++ ((([((1 : ℚ), (2 : ℚ)), (3, 4)]).zip
        ([true, false].zip [((9 : ℕ), (9 : ℕ), (9 : ℕ)), (8, 8, 8)])).filter
          (fun pvc => pvc.2.1)).map (fun pvc => mkCircle pvc.1 pvc.2.2) :=
  C5_draw_points_only_visible [] [(1, 2), (3, 4)] [true, false]
    [(9, 9, 9), (8, 8, 8)] rfl rfl

lemma loopEvents_all_predict {Frame QF HQF Causal Track : Type}
    (qfs : QF × HQF)
    (predictFn : QF × HQF → Frame → Causal → Prediction Track × Causal)
    (keys : ℕ → ℕ) :
    ∀ (frames : List (Option Frame)) (i : ℕ) (c : Causal),
      ∀ ev ∈ loopEvents qfs predictFn keys frames i c,
        ev = CallEv.predict qfs.1 qfs.2 := by
  intro frames
  induction frames with
  | nil =>
    intro i c ev hev
    simp [loopEvents] at hev
  | cons hd tl ih =>
    intro i c ev hev
    cases hd with
    | none => simp [loopEvents] at hev
    | some f =>
      simp only [loopEvents] at hev
      rcases List.mem_cons.mp hev with h | h
      · exact h
      · by_cases hk : keys i &&& 255 = 113
        · rw [if_pos hk] at h
          simp at h
        · rw [if_neg hk] at h
          exact ih _ _ ev h

/-- C7: in the run's call trace, the query-feature initialisation happens
exactly once, as the first call, and every predict call of the streaming
loop receives exactly the initialiser's output pair: the loop never
modifies or replaces the query features. -/
theorem C7_query_features_threaded :
    ∀ {Frame QF HQF Causal Track : Type} (initFn : Frame → QF × HQF)
      (predictFn : QF × HQF → Frame → Causal → Prediction Track × Causal)
      (keys : ℕ → ℕ) (firstFrame : Frame) (frames : List (Option Frame))
      (c0 : Causal),
      (mainEvents initFn predictFn keys firstFrame frames c0).countP
          (fun ev => isInitEv ev) = 1 ∧
      (mainEvents initFn predictFn keys firstFrame frames c0).head? =
        some (CallEv.init firstFrame) ∧
      ∀ ev ∈ mainEvents initFn predictFn keys firstFrame frames c0,
        isPredictEv ev = true →
          ev = CallEv.predict (initFn firstFrame).1 (initFn firstFrame).2 := by
  intro Frame QF HQF Causal Track initFn predictFn keys f0 frames c0
  refine ⟨?_, rfl, ?_⟩
  · unfold mainEvents
    rw [List.countP_cons]
    have hz : (loopEvents (initFn f0) predictFn keys frames 0 c0).countP
        (fun ev => isInitEv ev) = 0 := by
      rw [List.countP_eq_zero]
      intro ev hev
      rw [loopEvents_all_predict _ _ _ _ _ _ ev hev]
      simp [isInitEv]
    rw [hz]
    simp [isInitEv]
  · intro ev hev hpred
    unfold mainEvents at hev
    rcases List.mem_cons.mp hev with h | h
    · subst h
      simp [isPredictEv] at hpred
    · exact loopEvents_all_predict _ _ _ _ _ _ ev h

/-- C7 witness: a one-frame run over concrete data; the trace has exactly
one initialisation call, and the theorem identifies the predict event
found in the trace with the initialiser's output (7, 8). -/
theorem C7_query_features_threaded_witness :
    (mainEvents exInitFn exPredictFn exKeys () [some ()] ()).countP
        (fun ev => isInitEv ev) = 1 ∧
    (CallEv.predict (7 : ℕ) (8 : ℕ) : CallEv Unit ℕ ℕ) =
      CallEv.predict (exInitFn ()).1 (exInitFn ()).2 :=
  ⟨(C7_query_features_threaded exInitFn exPredictFn exKeys () [some ()] ()).1,
   (C7_query_features_threaded exInitFn exPredictFn exKeys () [some ()] ()).2.2
     (CallEv.predict 7 8) (by decide) rfl⟩

lemma trackLoop_lengths {Frame Causal Track : Type} (n : ℕ)
    (predictFn : Frame → Causal → Prediction Track × Causal)
    (hp : ∀ f c, (predictFn f c).1.tracks.length = n ∧
      (predictFn f c).1.visibles.length = n)
    (keys : ℕ → ℕ) :
    ∀ (fs : List (Option Frame)) (i : ℕ) (c : Causal)
      (acc : List (Prediction Track)),
      (∀ p ∈ acc, p.tracks.length = n ∧ p.visibles.length = n) →
      ∀ p ∈ trackLoop predictFn keys fs i c acc,
        p.tracks.length = n ∧ p.visibles.length = n := by
  intro fs
  induction fs with
  | nil =>
    intro i c acc hacc p hmem
    exact hacc p hmem
  | cons hd tl ih =>
    intro i c acc hacc p hmem
    cases hd with
    | none => exact hacc p hmem
    | some f =>
      have hacc2 : ∀ q ∈ acc ++ [(predictFn f c).1],
          q.tracks.length = n ∧ q.visibles.length = n := by
        intro q hq
        rcases List.mem_append.mp hq with h | h
        · exact hacc q h
        · rw [List.mem_singleton.mp h]
          exact hp f c
      by_cases hk : keys i &&& 255 = 113
      · simp only [trackLoop, if_pos hk] at hmem
        exact hacc2 p hmem
      · simp only [trackLoop, if_neg hk] at hmem
        exact ih _ _ _ hacc2 p hmem

/-- C6: the script's query-point count is the fixed constant 256 for the
whole run: sample_random_points at the script's arguments yields exactly
256 query points, and, given that the model emits per-query-point arrays
(one track and one visibility per query point, the spec-modelled part of
the external model), every prediction bundle the loop ever appends
satisfies len tracks = len visibles = 256. -/
theorem C6_num_points_invariant :
    ∀ {Frame Causal Track : Type} (rand : ℕ → ℕ)
      (predictFn : Frame → Causal → Prediction Track × Causal),
      (∀ f c, (predictFn f c).1.tracks.length = 256 ∧
        (predictFn f c).1.visibles.length = 256) →
      ∀ (keys : ℕ → ℕ) (fs : List (Option Frame)) (i : ℕ) (c : Causal),
        (sample_random_points 0 256 256 256 rand).map List.length =
          some 256 ∧
        ∀ p ∈ trackLoop predictFn keys fs i c [],
          p.tracks.length = 256 ∧ p.visibles.length = 256 := by
  intro Frame Causal Track rand predictFn hp keys fs i c
  constructor
  · have hsq : Nat.sqrt 256 * Nat.sqrt 256 = 256 := by
      rw [show Nat.sqrt 256 = 16 from Nat.sqrt_eq 16]
    obtain ⟨pts, h1, h2, _⟩ := sample_random_points_spec 0 256 256 256 rand hsq
    rw [h1]
    simp [h2]
  · exact trackLoop_lengths 256 predictFn hp keys fs i c [] (by simp)

/-- C6 witness: the query-point count of the script's sampling call,
evaluated with a concrete entropy stream through the theorem applied to a
concrete 256-point model. -/
theorem C6_num_points_invariant_witness :
    (sample_random_points 0 256 256 256 (fun _ => 0)).map List.length =
      some 256 :=
  (C6_num_points_invariant (fun _ => 0) exPredictFn256
    (fun _ _ => ⟨List.length_replicate 256 0, List.length_replicate 256 true⟩)
    exKeys [] 0 ()).1

/-- C8: online_model_predict consults the trajectory estimator only at
query chunk size 64 (two estimators agreeing there yield identical
predictions, whatever they do at other chunk sizes), and when the
estimator reports its per-level lists with last (finest) elements t, o, e,
the returned prediction is built from exactly those last elements —
visibility classified from o and e — together with the updated causal
context, so all coarser levels are discarded. -/
theorem C8_finest_level_only :
    ∀ {T C : Type} (est est2 : ℕ → C → Trajectories T C) (c : C),
      (est 64 c = est2 64 c →
        online_model_predict est c = online_model_predict est2 c) ∧
      ∀ (ts : List T) (t : T) (os : List (List ℝ)) (o : List ℝ)
        (es : List (List ℝ)) (e : List ℝ) (cc : C),
        est 64 c = ⟨ts ++ [t], os ++ [o], es ++ [e], cc⟩ →
        online_model_predict est c =
          some (t, List.zipWith (fun a b => postprocess_occlusions a b) o e,
            cc) := by
  intro T C est est2 c
  constructor
  · intro h
    unfold online_model_predict
    rw [h]
  · intro ts t os o es e cc h
    unfold online_model_predict
    rw [h]
    simp [List.getLast?_concat]

/-- C8 witness: a single-level estimator; the prediction keeps its only
(finest) level and its causal context. -/
theorem C8_finest_level_only_witness :
    online_model_predict exEst () =
      some (5, List.zipWith (fun a b => postprocess_occlusions a b)
        [(0 : ℝ)] [(0 : ℝ)], ()) :=
  (C8_finest_level_only exEst exEst ()).2 [] 5 [] [0] [] [0] () rfl

lemma predictStep_preds (cuda : Bool) (w h rw rh : ℚ) (st : LoopSt)
    (out : TBuf × VBuf) :
    (predictStep cuda w h rw rh st out).preds =
      st.preds ++ [(st.tnext, st.vnext)] := rfl

lemma predictStep_tnext_lt (cuda : Bool) (w h rw rh : ℚ) (st : LoopSt)
    (out : TBuf × VBuf) :
    st.tnext < (predictStep cuda w h rw rh st out).tnext := by
  cases cuda <;> simp [predictStep]

lemma predictStep_vnext_lt (cuda : Bool) (w h rw rh : ℚ) (st : LoopSt)
    (out : TBuf × VBuf) :
    st.vnext < (predictStep cuda w h rw rh st out).vnext := by
  cases cuda <;> simp [predictStep]

lemma predictStep_tmem_lt (cuda : Bool) (w h rw rh : ℚ) (st : LoopSt)
    (out : TBuf × VBuf) (j : ℕ) (hj : j < st.tnext) :
    (predictStep cuda w h rw rh st out).tmem j = st.tmem j := by
  have h1 : ¬ (j = st.tnext) := by omega
  have h2 : ¬ (j = st.tnext + 1) := by omega
  cases cuda <;> simp [predictStep, writeT, h1, h2]

lemma predictStep_vmem_lt (cuda : Bool) (w h rw rh : ℚ) (st : LoopSt)
    (out : TBuf × VBuf) (j : ℕ) (hj : j < st.vnext) :
    (predictStep cuda w h rw rh st out).vmem j = st.vmem j := by
  have h1 : ¬ (j = st.vnext) := by omega
  have h2 : ¬ (j = st.vnext + 1) := by omega
  cases cuda <;> simp [predictStep, writeV, h1, h2]

lemma predictStep_vmem_new (cuda : Bool) (w h rw rh : ℚ) (st : LoopSt)
    (out : TBuf × VBuf) :
    (predictStep cuda w h rw rh st out).vmem st.vnext = out.2 := by
  have h1 : ¬ (st.vnext = st.vnext + 1) := by omega
  cases cuda <;> simp [predictStep, writeV, h1]

lemma predictStep_tmem_new (w h rw rh : ℚ) (st : LoopSt) (out : TBuf × VBuf) :
    (predictStep true w h rw rh st out).tmem st.tnext = out.1 := by
  have h1 : ¬ (st.tnext = st.tnext + 1) := by omega
  simp [predictStep, writeT, h1]

lemma runPredictLoop_spec (cuda : Bool) (w h rw rh : ℚ) :
    ∀ (outs : List (TBuf × VBuf)) (st : LoopSt),
      (runPredictLoop cuda w h rw rh outs st).preds.length =
          st.preds.length + outs.length ∧
      (∀ j, j < st.tnext →
        (runPredictLoop cuda w h rw rh outs st).tmem j = st.tmem j) ∧
      (∀ j, j < st.vnext →
        (runPredictLoop cuda w h rw rh outs st).vmem j = st.vmem j) ∧
      st.tnext ≤ (runPredictLoop cuda w h rw rh outs st).tnext ∧
      st.vnext ≤ (runPredictLoop cuda w h rw rh outs st).vnext ∧
      (∀ j, j < st.preds.length →
        (runPredictLoop cuda w h rw rh outs st).preds.getD j (0, 0) =
          st.preds.getD j (0, 0)) ∧
      (∀ i, i < outs.length →
        (runPredictLoop cuda w h rw rh outs st).vmem
            ((runPredictLoop cuda w h rw rh outs st).preds.getD
              (st.preds.length + i) (0, 0)).2 = (outs.getD i ([], [])).2 ∧
        (cuda = true →
          (runPredictLoop cuda w h rw rh outs st).tmem
              ((runPredictLoop cuda w h rw rh outs st).preds.getD
                (st.preds.length + i) (0, 0)).1 = (outs.getD i ([], [])).1)) := by
  intro outs
  induction outs with
  | nil =>
    intro st
    refine ⟨by simp [runPredictLoop], fun j hj => rfl, fun j hj => rfl,
      le_refl _, le_refl _, fun j hj => rfl, fun i hi => absurd hi (by simp)⟩
  | cons o rest ih =>
    intro st
    set st2 := predictStep cuda w h rw rh st o with hst2
    have hrun : runPredictLoop cuda w h rw rh (o :: rest) st =
        runPredictLoop cuda w h rw rh rest st2 := by
      rw [hst2]
      rfl
    obtain ⟨ih1, ih2, ih3, ih4, ih5, ih6, ih7⟩ := ih st2
    have hpreds : st2.preds = st.preds ++ [(st.tnext, st.vnext)] := by
      rw [hst2]
      exact predictStep_preds cuda w h rw rh st o
    have hplen : st2.preds.length = st.preds.length + 1 := by
      rw [hpreds]
      simp
    have htlt : st.tnext < st2.tnext := by
      rw [hst2]
      exact predictStep_tnext_lt cuda w h rw rh st o
    have hvlt : st.vnext < st2.vnext := by
      rw [hst2]
      exact predictStep_vnext_lt cuda w h rw rh st o
    refine ⟨?_, ?_, ?_, ?_, ?_, ?_, ?_⟩
    · rw [hrun, ih1, hplen]
      simp
      omega
    · intro j hj
      rw [hrun, ih2 j (by omega), hst2]
      exact predictStep_tmem_lt cuda w h rw rh st o j hj
    · intro j hj
      rw [hrun, ih3 j (by omega), hst2]
      exact predictStep_vmem_lt cuda w h rw rh st o j hj
    · rw [hrun]
      exact le_trans htlt.le ih4
    · rw [hrun]
      exact le_trans hvlt.le ih5
    · intro j hj
      rw [hrun, ih6 j (by omega), hpreds]
      exact List.getD_append _ _ _ _ hj
    · intro i hi
      cases i with
      | zero =>
        have hpos : (runPredictLoop cuda w h rw rh rest st2).preds.getD
            (st.preds.length + 0) (0, 0) = (st.tnext, st.vnext) := by
          rw [Nat.add_zero, ih6 st.preds.length (by omega), hpreds,
            List.getD_append_right _ _ _ _ (le_refl _)]
          simp
        rw [hrun, hpos]
        constructor
        · rw [ih3 st.vnext (by omega), hst2]
          exact predictStep_vmem_new cuda w h rw rh st o
        · intro hc
          rw [ih2 st.tnext (by omega), hst2, hc]
          exact predictStep_tmem_new w h rw rh st o
      | succ k =>
        have hk : k < rest.length := by simpa using Nat.lt_of_succ_lt_succ hi
        have harith : st.preds.length + (k + 1) = st2.preds.length + k := by
          omega
        rw [hrun, harith]
        simpa using ih7 k hk

/-- C3 counterexample: on a CPU device, tracks.cpu() returns the tensor
stored in the predictions log itself and tracks.cpu().numpy() shares its
storage, so the in-place rescaling of lines 140-141 (here with original
size 512 x 512 and working size 256 x 256) overwrites the logged tracks:
after the iteration the stored buffer holds the rescaled (4, 8), no longer
the model output (2, 4), refuting the claim that the appended bundle is
never mutated. -/
theorem C3_prediction_mutated_on_cpu :
    (runPredictLoop false 512 512 256 256 [([(2, 4)], [true])]
        emptyLoopSt).preds = [(0, 0)] ∧
    (runPredictLoop false 512 512 256 256 [([(2, 4)], [true])]
        emptyLoopSt).tmem 0 = [(4, 8)] ∧
    ([((4 : ℚ), (8 : ℚ))] : TBuf) ≠ [((2 : ℚ), (4 : ℚ))] := by
  refine ⟨rfl, ?_, by norm_num⟩
  norm_num [runPredictLoop, predictStep, writeT, emptyLoopSt]

/-- C3 (amended): the visibles stored in each appended prediction bundle
are never mutated by any later statement on either device, and on a CUDA
device (where .cpu() copies the tensor off the device) the stored tracks
are never mutated either; on a CPU device, however, the in-place
coordinate rescaling writes through the shared numpy storage into the
logged tracks tensor. -/
theorem C3_prediction_immutability_amended :
    ∀ (cuda : Bool) (w h rw rh : ℚ) (outs : List (TBuf × VBuf)) (i : ℕ),
      i < outs.length →
      (runPredictLoop cuda w h rw rh outs emptyLoopSt).preds.length =
          outs.length ∧
      (runPredictLoop cuda w h rw rh outs emptyLoopSt).vmem
          ((runPredictLoop cuda w h rw rh outs emptyLoopSt).preds.getD i
            (0, 0)).2 = (outs.getD i ([], [])).2 ∧
      (cuda = true →
        (runPredictLoop cuda w h rw rh outs emptyLoopSt).tmem
            ((runPredictLoop cuda w h rw rh outs emptyLoopSt).preds.getD i
              (0, 0)).1 = (outs.getD i ([], [])).1) := by
  intro cuda w h rw rh outs i hi
  obtain ⟨h1, _, _, _, _, _, h7⟩ :=
    runPredictLoop_spec cuda w h rw rh outs emptyLoopSt
  refine ⟨by simpa [emptyLoopSt] using h1, ?_⟩
  simpa [emptyLoopSt] using h7 i hi

/-- C3 witness: a one-frame CUDA run; the logged prediction still holds
the model's visibles [true] and tracks [(2, 4)] after the iteration. -/
theorem C3_prediction_immutability_witness :
    (runPredictLoop true 512 512 256 256 [([(2, 4)], [true])]
        emptyLoopSt).preds.length = 1 ∧
    (runPredictLoop true 512 512 256 256 [([(2, 4)], [true])]
        emptyLoopSt).vmem
        ((runPredictLoop true 512 512 256 256 [([(2, 4)], [true])]
          emptyLoopSt).preds.getD 0 (0, 0)).2 = [true] ∧
    (true = true →
      (runPredictLoop true 512 512 256 256 [([(2, 4)], [true])]
          emptyLoopSt).tmem
          ((runPredictLoop true 512 512 256 256 [([(2, 4)], [true])]
            emptyLoopSt).preds.getD 0 (0, 0)).1 = [(2, 4)]) :=
  C3_prediction_immutability_amended true 512 512 256 256
    [([(2, 4)], [true])] 0 (by decide)

end Tapir
